import Mathlib

/-!
# npm-trustme — verification of the specification against the source

Shallow embedding of the core components of the `npm-trustme` repository:

* workflow-name normalization (`src/core/targets/normalize.ts`, `src/cli/main.ts`),
* the credential resolution chain (`src/core/credentials/index.ts`),
* Chrome profile detection by cookie scoring (`src/core/browser/chromeProfiles.ts`),
* trusted-publisher template capture (`src/core/npm/trustedPublisher.ts`,
  `buildTrustedPublisherTemplate` / `mapTrustedPublisherFields`),
* the reconciliation engine (`ensureTrustedPublisher` / `ensurePublishingAccess`),
  embedded as a state-passing computation over an abstract page oracle.

TypeScript functions become Lean functions; JavaScript truthiness on optional
strings is made explicit (`truthy`); fallible code returns `Except String`.
-/

namespace NpmTrustme

/-- Substring test: `strContains h w` holds iff `w` occurs contiguously in `h`.
Models a JavaScript regular-expression test whose pattern is the plain word `w`
(no anchors), applied to the string `h`. -/
def strContains (h w : String) : Bool :=
  h.toList.tails.any (fun t => w.toList.isPrefixOf t)

/-- `containsAny h ws` holds iff some word of `ws` occurs in `h`: models a
regular-expression alternation `(w1|w2|...)` tested against `h`. -/
def containsAny (h : String) (ws : List String) : Bool :=
  ws.any (fun w => strContains h w)

/-- JavaScript truthiness of an optional string: `undefined` and `""` are falsy. -/
def truthy : Option String → Bool
  | some s => s ≠ ""
  | none => false

/-- JavaScript `s.toLowerCase()` (character-wise, as for the repository's
ASCII field names and cookie names). -/
def jsToLower (s : String) : String := String.mk (s.toList.map Char.toLower)

/-- JavaScript `s.toUpperCase()` (character-wise). -/
def jsToUpper (s : String) : String := String.mk (s.toList.map Char.toUpper)

/-- JavaScript whitespace characters relevant to `String.prototype.trim`
(restricted to the ASCII whitespace the repository's inputs can contain). -/
def isJsWs (c : Char) : Bool :=
  c = ' ' || c = '\t' || c = '\n' || c = '\r'

/-- Models JavaScript `value.trim()`: strip leading and trailing whitespace. -/
def jsTrim (s : String) : String :=
  String.mk (((s.toList.dropWhile isJsWs).reverse.dropWhile isJsWs).reverse)

/-! ## Workflow-name normalization

Source: `normalizeWorkflowName` (`src/core/targets/normalize.ts`) uses Node's
POSIX `path.basename`; `resolveTarget` (`src/cli/main.ts`, lines 1023–1027)
applies `path.basename` only when the resolved workflow contains a `/`. -/

/-- Node `path.posix.basename`: ignore trailing slashes, then return the last
path segment (the suffix after the last remaining `/`). -/
def posixBasename (s : String) : String :=
  let noTrail := (s.toList.reverse.dropWhile (· = '/')).reverse
  String.mk ((noTrail.reverse.takeWhile (· ≠ '/')).reverse)

/-- Source: `normalizeWorkflowName(value)` — trim, reject empty, return the
basename, rejecting an empty basename. -/
def normalizeWorkflowName (value : String) : Except String String :=
  let trimmed := jsTrim value
  if trimmed = "" then
    .error "Workflow filename cannot be empty."
  else
    let basename := posixBasename trimmed
    if basename = "" then
      .error "Workflow filename cannot be empty."
    else
      .ok basename

/-- Source: the workflow normalization step of `resolveTarget`
(`src/cli/main.ts`): `if (resolvedWorkflow.includes('/')) resolvedWorkflow =
path.basename(resolvedWorkflow)`. -/
def resolveTargetWorkflow (workflow : String) : String :=
  if workflow.toList.contains '/' then posixBasename workflow else workflow

/-! ## Credential resolution chain

Source: `resolveCredentials` / `mergeCredentials` (`src/core/credentials/index.ts`).
The individual providers (direct flags, password-manager CLIs, interactive
prompt) are external subprocess/prompt adapters; each is modelled as an
abstract function from the accumulated partial record to the partial record it
returns, exactly the shape of `CredentialProvider.resolve` with the constant
`options`/`logger` arguments absorbed. -/

structure PartialCredentials where
  username : Option String := none
  password : Option String := none
  otp : Option String := none
deriving DecidableEq, Repr

structure ResolvedCredentials where
  username : String
  password : String
  otp : Option String := none
deriving DecidableEq, Repr

/-- JavaScript `a || b` on optional strings. -/
def orTruthy (a b : Option String) : Option String :=
  if truthy a then a else b

/-- Source: `mergeCredentials(current, next)` — per field
`current.f || next.f`. -/
def mergeCredentials (current next : PartialCredentials) : PartialCredentials :=
  { username := orTruthy current.username next.username
    password := orTruthy current.password next.password
    otp := orTruthy current.otp next.otp }

/-- A credential provider: `resolve(options, current, logger)` with the
invocation-constant `options` and `logger` absorbed. -/
abbrev CredentialProvider := PartialCredentials → PartialCredentials

/-- The accumulation loop of `resolveCredentials`:
`for (const provider of providers) { current = mergeCredentials(current, await provider.resolve(options, current, logger)) }`,
started from an arbitrary accumulated record. -/
def chainFrom (current : PartialCredentials) : List CredentialProvider → PartialCredentials
  | [] => current
  | p :: ps => chainFrom (mergeCredentials current (p current)) ps

/-- Source: `resolveCredentials` — run the provider chain from the empty
record, then require a truthy username and password. -/
def resolveCredentials (providers : List CredentialProvider) (allowMissing : Bool) :
    Except String (Option ResolvedCredentials) :=
  let current := chainFrom {} providers
  if truthy current.username && truthy current.password then
    .ok (some { username := current.username.getD ""
                password := current.password.getD ""
                otp := current.otp })
  else if allowMissing then
    .ok none
  else
    .error "Missing npm username/password (use --op-* refs, --username/--password, or env vars)."

/-! ## Chrome profile detection by cookie scoring

Source: `detectProfileByCookies` / `scoreCookies`
(`src/core/browser/chromeProfiles.ts`). The external cookie-reader capability
(`ChromeCookieReader.getCookies(url, profileOrPath)`) is modelled as a total
function from URL and profile to the cookie list it returns; the `resolve
(userDataDir, profile)` path construction is absorbed into the reader's
profile argument. A read error (caught and logged in the source, leaving the
accumulated list unchanged) corresponds to the reader returning `[]`. -/

/-- Cookie record as consumed by the scorer. The source reads `cookie.name`,
`cookie.httpOnly` and the capitalized variant `cookie.HttpOnly`; only those
fields influence detection. -/
structure ChromeCookie where
  name : Option String := none
  httpOnly : Option Bool := none
  httpOnlyCap : Option Bool := none
deriving DecidableEq, Repr

structure CookieCandidate where
  profile : String
  cookieCount : Nat
  authMatches : Nat
  httpOnlyCount : Nat
  score : Nat
deriving DecidableEq, Repr

abbrev ChromeCookieReader := String → String → List ChromeCookie

/-- Source: `NPM_URLS`. -/
def npmUrls : List String :=
  ["https://www.npmjs.com", "https://www.npmjs.com/settings/profile"]

/-- Source: `AUTH_PATTERNS = [/session/i, /token/i, /auth/i, /npm/i, /login/i]`,
tested (case-insensitively, hence on the lowercased name) as substrings. -/
def authPatterns : List String := ["session", "token", "auth", "npm", "login"]

/-- One cookie's contribution to `authMatches`:
`AUTH_PATTERNS.some((re) => re.test((cookie.name || '').toLowerCase()))`. -/
def isAuthCookieName (c : ChromeCookie) : Bool :=
  containsAny (jsToLower (c.name.getD "")) authPatterns

/-- One cookie's effective http-only flag:
`typeof cookie.httpOnly === 'boolean' ? cookie.httpOnly : cookie.HttpOnly`,
used under JavaScript truthiness (`undefined` falsy). -/
def cookieHttpOnly (c : ChromeCookie) : Bool :=
  match c.httpOnly with
  | some b => b
  | none => c.httpOnlyCap.getD false

/-- Source: `scoreCookies(cookies)` — count auth-pattern name matches and
http-only cookies. Returns `(authMatches, httpOnlyCount)`. -/
def scoreCookies (cookies : List ChromeCookie) : Nat × Nat :=
  cookies.foldl
    (fun acc c =>
      (acc.1 + (if isAuthCookieName c then 1 else 0),
       acc.2 + (if cookieHttpOnly c then 1 else 0)))
    (0, 0)

/-- The per-profile body of the `detectProfileByCookies` loop: concatenate the
cookies read for each URL of `NPM_URLS`, skip the profile when no cookie was
read, otherwise build the scored candidate with
`score = authMatches * 10 + httpOnlyCount * 3 + Math.min(cookieCount, 50)`. -/
def candidateFor (reader : ChromeCookieReader) (profile : String) : Option CookieCandidate :=
  let cookies := npmUrls.flatMap (fun url => reader url profile)
  if cookies.isEmpty then none
  else
    let counts := scoreCookies cookies
    some { profile := profile
           cookieCount := cookies.length
           authMatches := counts.1
           httpOnlyCount := counts.2
           score := counts.1 * 10 + counts.2 * 3 + min cookies.length 50 }

/-- The candidate list accumulated by `detectProfileByCookies`, in profile
order. -/
def candidatesOf (reader : ChromeCookieReader) (profiles : List String) : List CookieCandidate :=
  profiles.filterMap (candidateFor reader)

/-- The sort comparator of `detectProfileByCookies` as a relation:
`candBefore a b` holds iff the comparator
`(a, b) => b.score - a.score || ... || b.cookieCount - a.cookieCount`
returns a non-positive number, i.e. `a` is ranked no later than `b`
(descending score, ties by `authMatches`, then `httpOnlyCount`, then raw
cookie count). -/
def candBefore (a b : CookieCandidate) : Prop :=
  b.score < a.score ∨
    (a.score = b.score ∧
      (b.authMatches < a.authMatches ∨
        (a.authMatches = b.authMatches ∧
          (b.httpOnlyCount < a.httpOnlyCount ∨
            (a.httpOnlyCount = b.httpOnlyCount ∧ b.cookieCount ≤ a.cookieCount)))))

instance : DecidableRel candBefore := fun a b => by
  unfold candBefore; infer_instance

/-- Source: `detectProfileByCookies(profiles, reader, ...)` — build the
candidate list, return `null` when empty, otherwise sort by the comparator
(a stable sort, as JavaScript's) and return the first candidate. -/
def detectProfileByCookies (reader : ChromeCookieReader) (profiles : List String) :
    Option CookieCandidate :=
  let candidates := candidatesOf reader profiles
  if candidates.isEmpty then none
  else (candidates.insertionSort candBefore).head?

/-! ## Trusted-publisher template capture

Source: `buildTrustedPublisherTemplate` / `mapTrustedPublisherFields`
(`src/core/npm/trustedPublisher.ts`). The captured form inputs are the data;
the DOM extraction that produces them is browser-side and outside the model. -/

structure TrustedPublisherFieldInput where
  name : String
  type : Option String := none
  value : Option String := none
  placeholder : Option String := none
  label : Option String := none
deriving DecidableEq, Repr

/-- `fieldMap` under construction: each logical field optionally holds the
actual form-field name claimed for it. -/
structure TPFieldMap where
  owner : Option String := none
  repo : Option String := none
  workflow : Option String := none
  environment : Option String := none
  maintainer : Option String := none
  publisher : Option String := none
deriving DecidableEq, Repr

inductive HttpMethod | post | get
deriving DecidableEq, Repr

structure TrustedPublisherTemplate where
  action : String
  method : HttpMethod
  staticFields : List (String × String)
  fieldMap : TPFieldMap
deriving DecidableEq, Repr

/-- Source: the haystack of `mapTrustedPublisherFields` —
`[input.name, input.label, input.placeholder].filter(Boolean).join(' ').toLowerCase()`. -/
def haystack (i : TrustedPublisherFieldInput) : String :=
  jsToLower (String.intercalate " "
    (([i.name] ++ i.label.toList ++ i.placeholder.toList).filter (fun s => s ≠ "")))

/-- `/(owner|organization|org|user)/` on the lowercased haystack. -/
def matchesOwner (h : String) : Bool :=
  containsAny h ["owner", "organization", "org", "user"]

/-- `/(repo|repository|project)/`. -/
def matchesRepo (h : String) : Bool :=
  containsAny h ["repo", "repository", "project"]

/-- `/(workflow|file[_\\s-]?path|workflow filename)/`: the character class in
the source regex literal contains underscore, backslash, the letter `s`, and
hyphen, and is optional. -/
def matchesWorkflow (h : String) : Bool :=
  containsAny h
    ["workflow", "filepath", "file_path", "file\\path", "filespath", "file-path",
     "workflow filename"]

/-- `/(environment)/`. -/
def matchesEnvironment (h : String) : Bool := containsAny h ["environment"]

/-- `/(maintainer)/`. -/
def matchesMaintainer (h : String) : Bool := containsAny h ["maintainer"]

/-- `/(publisher|provider)/`. -/
def matchesPublisher (h : String) : Bool := containsAny h ["publisher", "provider"]

/-- One iteration of the `mapTrustedPublisherFields` loop: each `if` guards on
the field being still unclaimed (JavaScript truthiness: a field set to `""`
counts as unclaimed) and on the haystack matching; `continue` after a claim
makes the branches mutually exclusive. -/
def mapFieldsStep (m : TPFieldMap) (i : TrustedPublisherFieldInput) : TPFieldMap :=
  let h := haystack i
  if ¬ truthy m.owner ∧ matchesOwner h then { m with owner := some i.name }
  else if ¬ truthy m.repo ∧ matchesRepo h then { m with repo := some i.name }
  else if ¬ truthy m.workflow ∧ matchesWorkflow h then { m with workflow := some i.name }
  else if ¬ truthy m.environment ∧ matchesEnvironment h then { m with environment := some i.name }
  else if ¬ truthy m.maintainer ∧ matchesMaintainer h then { m with maintainer := some i.name }
  else if ¬ truthy m.publisher ∧ matchesPublisher h then { m with publisher := some i.name }
  else m

/-- Source: `mapTrustedPublisherFields(inputs)` — fold the inputs, then fail
when `owner`, `repo` or `workflow` is missing, naming the missing keys. -/
def mapTrustedPublisherFields (inputs : List TrustedPublisherFieldInput) :
    Except String TPFieldMap :=
  let m := inputs.foldl mapFieldsStep {}
  if ¬ truthy m.owner ∨ ¬ truthy m.repo ∨ ¬ truthy m.workflow then
    let missing :=
      (if truthy m.owner then [] else ["owner"]) ++
      (if truthy m.repo then [] else ["repo"]) ++
      (if truthy m.workflow then [] else ["workflow"])
    .error ("Unable to map trusted publisher fields: missing " ++
      String.intercalate ", " missing)
  else
    .ok m

/-- JavaScript `Object.values(fieldMap)`: the values of the assigned keys. -/
def fieldMapValues (m : TPFieldMap) : List String :=
  [m.owner, m.repo, m.workflow, m.environment, m.maintainer, m.publisher].filterMap id

/-- JavaScript object assignment `staticFields[name] = value` on an
insertion-ordered record: overwrite an existing key, otherwise append. -/
def setField (sf : List (String × String)) (k v : String) : List (String × String) :=
  if sf.any (fun kv => kv.1 = k) then
    sf.map (fun kv => if kv.1 = k then (k, v) else kv)
  else
    sf ++ [(k, v)]

/-- `input.type && input.type.toLowerCase() === 'checkbox'`. -/
def isCheckboxType : Option String → Bool
  | some t => t ≠ "" && jsToLower t = "checkbox"
  | none => false

/-- One iteration of the `staticFields` loop in `buildTrustedPublisherTemplate`:
skip inputs with a falsy name, inputs whose name is one of the mapped field
names, inputs with a falsy value, and checkbox inputs; keep the rest
verbatim. -/
def staticFieldsStep (fieldMap : TPFieldMap) (sf : List (String × String))
    (i : TrustedPublisherFieldInput) : List (String × String) :=
  if i.name = "" then sf
  else if (fieldMapValues fieldMap).contains i.name then sf
  else if ¬ truthy i.value then sf
  else if isCheckboxType i.type then sf
  else setField sf i.name (i.value.getD "")

/-- Source: `buildTrustedPublisherTemplate(action, method, inputs)` — map the
logical fields (failing loudly when owner/repo/workflow are unmappable), then
collect the static fields and normalize the method
(`method.toUpperCase() === 'GET' ? 'GET' : 'POST'`). -/
def buildTrustedPublisherTemplate (action method : String)
    (inputs : List TrustedPublisherFieldInput) : Except String TrustedPublisherTemplate :=
  match mapTrustedPublisherFields inputs with
  | .error e => .error e
  | .ok fieldMap =>
    .ok { action := action
          method := if jsToUpper method = "GET" then .get else .post
          staticFields := inputs.foldl (staticFieldsStep fieldMap) []
          fieldMap := fieldMap }

/-! ## Reconciliation engine

Source: `ensureTrustedPublisher` / `ensurePublishingAccess` and their helpers
(`src/core/npm/trustedPublisher.ts`). The Playwright page is an external
collaborator; it is modelled by a *page oracle* `O : Nat → PageView` giving, at
each successive observation, the boolean outcomes of the visibility / URL /
checked-state queries the engine makes. Each primitive page interaction
(navigation, click, fill, wait, screenshot) is recorded in an action trace;
query-only operations advance the observation counter but record nothing.
Playwright's per-locator fallback chains (e.g. the three locator getters of
`selectPublisherProvider`, or the role/label/placeholder candidates of
`fillByLabelAny`) collapse to a single oracle bit for "some candidate of this
chain is visible (and editable)", since no claim distinguishes which candidate
within one chain matched. Wall-clock time (`Date.now()`) is modelled by a
millisecond counter advanced by `waitForTimeout`; loop bodies rerun under an
explicit fuel large enough that fuel exhaustion is unreachable before the
source's own time-based exit, and fuel exhaustion maps to the same timeout
failure. -/

inductive PublisherProvider | github | gitlab
deriving DecidableEq, Repr

inductive PublishingAccess | disallowTokens | allowBypassToken | skip
deriving DecidableEq, Repr

structure TrustedPublisherTarget where
  packageName : String
  owner : String
  repo : String
  workflow : String
  environment : Option String := none
  provider : PublisherProvider
  maintainer : Option String := none
  publishingAccess : PublishingAccess
deriving DecidableEq, Repr

inductive LoginMode | auto | browser
deriving DecidableEq, Repr

structure EnsureOptions where
  dryRun : Bool := false
  timeoutMs : Option Nat := none
  screenshotDir : Option String := none
  loginMode : LoginMode := .auto
  headless : Bool := false
deriving DecidableEq, Repr

/-- An observable page interaction. -/
inductive PageAction where
  | goto (url : String)
  | waitMs (ms : Nat)
  | clickTab
  | scrollToHeading
  | clickProvider (provider : PublisherProvider)
  | clickSecurityKey
  | fill (field value : String)
  | clickSetupConnection
  | clickRadio
  | clickSave
  | screenshot (label : String)
deriving DecidableEq, Repr

/-- The mutating page actions named by the dry-run contract: provider
selection, form fill, submit ("set up connection") click, radio click, and
save click. Navigation, waiting, tab focus, scrolling, the security-key
trigger and diagnostic screenshots do not mutate the managed settings. -/
def isMutating : PageAction → Bool
  | .clickProvider _ => true
  | .fill _ _ => true
  | .clickSetupConnection => true
  | .clickRadio => true
  | .clickSave => true
  | _ => false

/-- Outcome of the page queries made at one observation point. -/
structure PageView where
  urlHasLogin : Bool := false
  urlIsAccess : Bool := false
  twoFactorGate : Bool := false
  securityKeyButton : Bool := false
  tpTab : Bool := false
  tpHeading : Bool := false
  ownerFieldVisible : Bool := false
  slugVisible : Bool := false
  workflowVisible : Bool := false
  envVisible : Bool := false
  providerControl : Bool := false
  setupConnectionButton : Bool := false
  fillOwner : Bool := false
  fillRepo : Bool := false
  fillWorkflow : Bool := false
  fillEnvironment : Bool := false
  fillMaintainer : Bool := false
  radioByRole : Bool := false
  radioByLabel : Bool := false
  radioChecked : Bool := false
  saveButton : Bool := false
deriving DecidableEq, Repr

/-- A page oracle: the page's observable state at each successive observation. -/
abbrev PageOracle := Nat → PageView

structure PageState where
  t : Nat := 0
  nowMs : Nat := 0
  trace : List PageAction := []
deriving DecidableEq, Repr

def initState : PageState := {}

/-- The engine's effect monad: state passing over `PageState`, with thrown
`Error`s as `Except.error` carrying the message. -/
def M (α : Type) : Type := PageState → Except String α × PageState

instance : Monad M where
  pure a := fun s => (.ok a, s)
  bind x f := fun s =>
    match x s with
    | (.ok a, s') => f a s'
    | (.error e, s') => (.error e, s')

def throwM {α : Type} (e : String) : M α := fun s => (.error e, s)

/-- `try { x } catch (e) { h e }` where the handler receives the message. -/
def catchM {α : Type} (x : M α) (h : String → M α) : M α := fun s =>
  match x s with
  | (.ok a, s') => (.ok a, s')
  | (.error e, s') => h e s'

/-- Observe the page: one round of queries against the oracle. -/
def viewM (O : PageOracle) : M PageView := fun s =>
  (.ok (O s.t), { s with t := s.t + 1 })

/-- Record a page interaction. -/
def act (a : PageAction) : M Unit := fun s =>
  (.ok (), { s with t := s.t + 1, trace := s.trace ++ [a] })

/-- `page.waitForTimeout(ms)`: advances the clock. -/
def waitMs (ms : Nat) : M Unit := fun s =>
  (.ok (), { s with t := s.t + 1, nowMs := s.nowMs + ms, trace := s.trace ++ [.waitMs ms] })

/-- `Date.now()`. -/
def nowM : M Nat := fun s => (.ok s.nowMs, s)

/-- Source: `captureScreenshot(page, dir, label)` (`src/core/browser/session.ts`):
returns `null` without touching the page when no directory is configured,
otherwise takes a screenshot and returns its path. -/
def captureScreenshot (dir : Option String) (label : String) : M (Option String) :=
  match dir with
  | none => pure none
  | some d => do
    act (.screenshot label)
    pure (some (d ++ "/" ++ label ++ ".png"))

/-- `const hint = screenshot ? \x7b` (screenshot: ...)\x7d : ''`. -/
def screenshotHint : Option String → String
  | some p => " (screenshot: " ++ p ++ ")"
  | none => ""

/-- Source: `accessUrl(pkg)`. -/
def accessUrl (pkg : String) : String :=
  "https://www.npmjs.com/package/" ++ pkg ++ "/access"

/-- Source: `accessLabel(access)` — the label pattern of the desired
publishing-access radio (returned as the regex source text). -/
def accessLabel (access : PublishingAccess) : String :=
  if access = .disallowTokens then
    "require two-factor authentication and disallow tokens"
  else
    "require two-factor authentication or a granular access token"

/-- Source: `isTwoFactorGate(page)` — any of the 2FA signals is visible
(heading, security-key button, recovery link, one-time-code inputs), collapsed
to one oracle bit. -/
def isTwoFactorGate (v : PageView) : Bool := v.twoFactorGate

/-- Source: `isTrustedPublishersReady(page)` — the trusted-publishers tab,
heading, or owner textbox is visible. -/
def isTrustedPublishersReady (v : PageView) : Bool :=
  v.tpTab || v.tpHeading || v.ownerFieldVisible

/-- Source: `triggerSecurityKeyIfPresent(page, logger)` — click the
security-key button when visible, ignoring click failures. -/
def triggerSecurityKeyIfPresent (O : PageOracle) : M Unit := do
  let v ← viewM O
  if v.securityKeyButton then act .clickSecurityKey else pure ()

/-- `options.loginMode === 'browser' && !options.headless`. -/
def browserManualMode (options : EnsureOptions) : Bool :=
  options.loginMode = .browser && !options.headless

/-- Effective timeout of `waitForAccessReady`: `options.timeoutMs ?? 120000`. -/
def accessTimeout (options : EnsureOptions) : Nat := options.timeoutMs.getD 120000

/-- Effective timeout of `waitForTrustedPublisherForm`: `options.timeoutMs ?? 60000`. -/
def formTimeout (options : EnsureOptions) : Nat := options.timeoutMs.getD 60000

/-- Effective timeout of `waitForTrustedPublisher`: `options.timeoutMs ?? 30000`. -/
def confirmTimeout (options : EnsureOptions) : Nat := options.timeoutMs.getD 30000

/-- Fuel bound for a polling loop whose iterations either advance the clock by
at least 1000 ms or are immediately followed by one that does: generous enough
that fuel never runs out before the source's `Date.now() - start < timeout`
exit. -/
def fuelFor (timeoutMs : Nat) : Nat := 2 * (timeoutMs / 1000) + 4

/-- The timeout failure at the end of `waitForAccessReady`. -/
def accessTimeoutFail (options : EnsureOptions) : M Unit := do
  let screenshot ← captureScreenshot options.screenshotDir "access-timeout"
  throwM ("Timed out waiting for npm access page" ++ screenshotHint screenshot)

/-- The `while (Date.now() - start < timeout)` body of `waitForAccessReady`:
login redirect handling, 2FA-gate handling, readiness check, rate-limited
re-navigation, then a 1-second wait. `loginPrompted` / `twoFactorPrompted`
only gate log lines in the source and are threaded for fidelity. -/
def waitForAccessReadyLoop (O : PageOracle) (options : EnsureOptions) (pkg : String)
    (start : Nat) : Nat → Bool → Bool → Nat → M Unit
  | 0, _, _, _ => accessTimeoutFail options
  | fuel + 1, loginPrompted, twoFactorPrompted, lastNavigation => do
    let now ← nowM
    if now - start < accessTimeout options then do
      let v ← viewM O
      if v.urlHasLogin then
        if browserManualMode options then do
          waitMs 1000
          waitForAccessReadyLoop O options pkg start fuel true twoFactorPrompted lastNavigation
        else
          throwM "Not logged in (redirected to login)."
      else if isTwoFactorGate v then
        if browserManualMode options then do
          triggerSecurityKeyIfPresent O
          waitMs 1000
          waitForAccessReadyLoop O options pkg start fuel loginPrompted true lastNavigation
        else
          throwM "npm requires 2FA verification; rerun with --login-mode browser and headless=false."
      else if isTrustedPublishersReady v then
        pure ()
      else do
        let now2 ← nowM
        if !v.urlIsAccess && decide (now2 - lastNavigation > 5000) then do
          act (.goto (accessUrl pkg))
          waitForAccessReadyLoop O options pkg start fuel loginPrompted twoFactorPrompted now2
        else do
          waitMs 1000
          waitForAccessReadyLoop O options pkg start fuel loginPrompted twoFactorPrompted lastNavigation
    else
      accessTimeoutFail options

/-- Source: `waitForAccessReady(page, packageName, logger, options)`. -/
def waitForAccessReady (O : PageOracle) (options : EnsureOptions) (pkg : String) : M Unit := do
  let start ← nowM
  waitForAccessReadyLoop O options pkg start (fuelFor (accessTimeout options)) false false 0

/-- Source: `focusTrustedPublishersSection(page)` — click the tab when
visible, otherwise scroll the heading into view when present. -/
def focusTrustedPublishersSection (O : PageOracle) : M Unit := do
  let v ← viewM O
  if v.tpTab then do
    act .clickTab
    waitMs 500
  else do
    let v2 ← viewM O
    if v2.tpHeading then act .scrollToHeading else pure ()

/-- Source: `hasTrustedPublisher(page, target)` — the owner/repo slug, the
workflow name an, when configured, the environment are all visible as text. -/
def hasTrustedPublisher (O : PageOracle) (target : TrustedPublisherTarget) : M Bool := do
  let v1 ← viewM O
  let v2 ← viewM O
  let envVisible ←
    match target.environment with
    | some _ => do
      let v3 ← viewM O
      pure v3.envVisible
    | none => pure true
  pure (v1.slugVisible && v2.workflowVisible && envVisible)

/-- Source: `selectPublisherProvider(page, provider)` — the first visible
control among the button/radio/tab lookups is clicked; when none is visible
the function returns without error. -/
def selectPublisherProvider (O : PageOracle) (provider : PublisherProvider) : M Unit := do
  let v ← viewM O
  if v.providerControl then do
    act (.clickProvider provider)
    waitMs 300
  else
    pure ()

/-- Source: `waitForTrustedPublisherForm(page, logger, options)` — poll for
the owner textbox, handling a re-appearing 2FA gate, under the 60s default
timeout. -/
def waitForTrustedPublisherFormLoop (O : PageOracle) (options : EnsureOptions)
    (start : Nat) : Nat → Bool → M Unit
  | 0, _ => do
    let screenshot ← captureScreenshot options.screenshotDir "trusted-publisher-form-timeout"
    throwM ("Timed out waiting for trusted publisher form" ++ screenshotHint screenshot)
  | fuel + 1, twoFactorPrompted => do
    let now ← nowM
    if now - start < formTimeout options then do
      let v ← viewM O
      if isTwoFactorGate v then
        if browserManualMode options then do
          triggerSecurityKeyIfPresent O
          waitMs 1000
          waitForTrustedPublisherFormLoop O options start fuel true
        else
          throwM "npm requires 2FA verification; rerun with --login-mode browser and headless=false."
      else if v.ownerFieldVisible then
        pure ()
      else do
        waitMs 500
        waitForTrustedPublisherFormLoop O options start fuel twoFactorPrompted
    else do
      let screenshot ← captureScreenshot options.screenshotDir "trusted-publisher-form-timeout"
      throwM ("Timed out waiting for trusted publisher form" ++ screenshotHint screenshot)

def waitForTrustedPublisherForm (O : PageOracle) (options : EnsureOptions) : M Unit := do
  let start ← nowM
  waitForTrustedPublisherFormLoop O options start (fuelFor (formTimeout options)) false

/-- Source: `fillByLabelAny(page, labels, value)` — the candidate-locator
chain collapsed to one availability bit; throws when no editable candidate is
visible. -/
def fillByLabelAny (O : PageOracle) (avail : PageView → Bool) (field value : String) :
    M Unit := do
  let v ← viewM O
  if avail v then act (.fill field value)
  else throwM ("Unable to locate field for " ++ field)

/-- Source: `fillOptionalByLabel(page, label, value)` — same chain, but a
missing control is silently ignored. -/
def fillOptionalByLabel (O : PageOracle) (avail : PageView → Bool) (field value : String) :
    M Unit := do
  let v ← viewM O
  if avail v then act (.fill field value) else pure ()

/-- Source: `fillTrustedPublisherForm(page, target)`. -/
def fillTrustedPublisherForm (O : PageOracle) (target : TrustedPublisherTarget) : M Unit := do
  fillByLabelAny O (·.fillOwner) "owner" target.owner
  fillByLabelAny O (·.fillRepo) "repo" target.repo
  fillByLabelAny O (·.fillWorkflow) "workflow" target.workflow
  match target.environment with
  | some env => fillByLabelAny O (·.fillEnvironment) "environment" env
  | none => pure ()
  match target.maintainer with
  | some maintainer => fillOptionalByLabel O (·.fillMaintainer) "maintainer" maintainer
  | none => pure ()

/-- Source: `clickSetupConnection(page)` — `findButton` over the
"set up connection" patterns (with the `button[type="submit"]` fallback)
collapsed to one bit; throws when no button is found. -/
def clickSetupConnection (O : PageOracle) : M Unit := do
  let v ← viewM O
  if v.setupConnectionButton then do
    act .clickSetupConnection
    waitMs 1000
  else
    throwM "Unable to locate a submit button"

/-- Source: `waitForTrustedPublisher(page, target, options)` — poll the
textual presence check under the 30s default timeout; returns whether the
publisher was confirmed. -/
def waitForTrustedPublisherLoop (O : PageOracle) (options : EnsureOptions)
    (target : TrustedPublisherTarget) (start : Nat) : Nat → M Bool
  | 0 => pure false
  | fuel + 1 => do
    let now ← nowM
    if now - start < confirmTimeout options then do
      let present ← hasTrustedPublisher O target
      if present then pure true
      else do
        waitMs 1000
        waitForTrustedPublisherLoop O options target start fuel
    else
      pure false

def waitForTrustedPublisher (O : PageOracle) (options : EnsureOptions)
    (target : TrustedPublisherTarget) : M Bool := do
  let start ← nowM
  waitForTrustedPublisherLoop O options target start (fuelFor (confirmTimeout options))

inductive TrustedPublisherResult | exists_ | added | dryRun
deriving DecidableEq, Repr

inductive PublishingAccessResult | okRes | updated | dryRun | skipped
deriving DecidableEq, Repr

/-- Source: `ensureTrustedPublisher(page, target, logger, options)`. -/
def ensureTrustedPublisher (O : PageOracle) (target : TrustedPublisherTarget)
    (options : EnsureOptions) : M TrustedPublisherResult := do
  act (.goto (accessUrl target.packageName))
  waitForAccessReady O options target.packageName
  focusTrustedPublishersSection O
  let exists_ ← hasTrustedPublisher O target
  if exists_ then
    pure .exists_
  else if options.dryRun then
    pure .dryRun
  else do
    selectPublisherProvider O target.provider
    catchM
      (do
        waitForTrustedPublisherForm O options
        fillTrustedPublisherForm O target)
      (fun message => do
        let screenshot ← captureScreenshot options.screenshotDir "trusted-publisher-form"
        throwM (message ++ screenshotHint screenshot))
    clickSetupConnection O
    let confirmed ← waitForTrustedPublisher O options target
    if !confirmed then do
      let screenshot ← captureScreenshot options.screenshotDir "trusted-publisher-failed"
      throwM ("Failed to confirm trusted publisher creation" ++ screenshotHint screenshot)
    else
      pure .added

/-- Source: `findRadio(page, label)` — role lookup with a label fallback,
collapsed to the two oracle bits; `none` when neither is visible. -/
def findRadio (v : PageView) : Bool := v.radioByRole || v.radioByLabel

/-- Source: `ensurePublishingAccess(page, target, logger, options)`. -/
def ensurePublishingAccess (O : PageOracle) (target : TrustedPublisherTarget)
    (options : EnsureOptions) : M PublishingAccessResult :=
  if target.publishingAccess = .skip then
    pure .skipped
  else do
    act (.goto (accessUrl target.packageName))
    waitForAccessReady O options target.packageName
    let v ← viewM O
    if ¬ findRadio v then
      pure .skipped
    else do
      let v2 ← viewM O
      if v2.radioChecked then
        pure .okRes
      else if options.dryRun then
        pure .dryRun
      else do
        act .clickRadio
        let v3 ← viewM O
        if v3.saveButton then do
          act .clickSave
          waitMs 1000
          pure .updated
        else
          throwM "Unable to locate a submit button"

/-! ## Theorems -/

lemma string_mk_toList (l : List Char) : (String.mk l).toList = l := rfl

/-- The basename never contains a slash: it is built from a `takeWhile (· ≠ '/')`. -/
lemma posixBasename_no_slash (s : String) : '/' ∉ (posixBasename s).toList := by
  unfold posixBasename
  intro h
  rw [string_mk_toList, List.mem_reverse] at h
  have hp := List.mem_takeWhile_imp h
  simp at hp

/-- Claim C9: workflow-identifier normalization strips any path prefix and
yields a bare filename: `.github/workflows/release.yml` resolves to
`release.yml`, and no normalized result (whether produced by
`normalizeWorkflowName` or by `resolveTarget`'s basename step) contains a
path separator. -/
theorem workflow_normalization_spec (s r w : String) :
    normalizeWorkflowName ".github/workflows/release.yml" = .ok "release.yml" ∧
    resolveTargetWorkflow ".github/workflows/release.yml" = "release.yml" ∧
    (normalizeWorkflowName s = .ok r → '/' ∉ r.toList) ∧
    '/' ∉ (resolveTargetWorkflow w).toList := by
  refine ⟨by rfl, by rfl, ?_, ?_⟩
  · intro h
    unfold normalizeWorkflowName at h
    by_cases h1 : jsTrim s = ""
    · simp [h1] at h
    · by_cases h2 : posixBasename (jsTrim s) = ""
      · simp [h1, h2] at h
      · simp [h1, h2] at h
        rw [← h]
        exact posixBasename_no_slash _
  · unfold resolveTargetWorkflow
    by_cases hc : w.toList.contains '/'
    · rw [if_pos hc]
      exact posixBasename_no_slash _
    · rw [if_neg hc]
      intro hmem
      exact hc (List.elem_eq_true_of_mem hmem)

/-- Closed instantiation of C9's universally quantified parts. -/
theorem workflow_normalization_spec_witness :
    normalizeWorkflowName ".github/workflows/release.yml" = .ok "release.yml" ∧
    '/' ∉ (resolveTargetWorkflow "a/b.yml").toList := by
  have h := workflow_normalization_spec ".github/workflows/release.yml" "release.yml" "a/b.yml"
  exact ⟨h.1, h.2.2.2⟩

/-- `a || b` keeps a truthy `a`. -/
lemma orTruthy_of_truthy {a : Option String} (h : truthy a) (b : Option String) :
    orTruthy a b = a := by
  unfold orTruthy
  rw [if_pos h]

/-- Running the rest of the chain never unsets a truthy field: the three
field-wise no-overwrite facts, proved together. -/
lemma chainFrom_preserves (ps : List CredentialProvider) (current : PartialCredentials) :
    (truthy current.username → (chainFrom current ps).username = current.username) ∧
    (truthy current.password → (chainFrom current ps).password = current.password) ∧
    (truthy current.otp → (chainFrom current ps).otp = current.otp) := by
  induction ps generalizing current with
  | nil => exact ⟨fun _ => rfl, fun _ => rfl, fun _ => rfl⟩
  | cons p ps ih =>
    refine ⟨fun h => ?_, fun h => ?_, fun h => ?_⟩
    · show (chainFrom (mergeCredentials current (p current)) ps).username = current.username
      have hmu : (mergeCredentials current (p current)).username = current.username :=
        orTruthy_of_truthy h _
      rw [(ih (mergeCredentials current (p current))).1 (by rw [hmu]; exact h), hmu]
    · show (chainFrom (mergeCredentials current (p current)) ps).password = current.password
      have hmu : (mergeCredentials current (p current)).password = current.password :=
        orTruthy_of_truthy h _
      rw [(ih (mergeCredentials current (p current))).2.1 (by rw [hmu]; exact h), hmu]
    · show (chainFrom (mergeCredentials current (p current)) ps).otp = current.otp
      have hmu : (mergeCredentials current (p current)).otp = current.otp :=
        orTruthy_of_truthy h _
      rw [(ih (mergeCredentials current (p current))).2.2 (by rw [hmu]; exact h), hmu]

/-- Claim C4: the credential chain consults providers in order; for each of
username, password and otp the earliest non-empty value wins and is never
overwritten by a later provider; in particular, when the password is still
unset and a provider supplies a non-empty password, that value survives the
remaining providers. -/
theorem credential_chain_precedence (current : PartialCredentials)
    (p : CredentialProvider) (rest ps : List CredentialProvider) :
    (truthy current.username → (chainFrom current ps).username = current.username) ∧
    (truthy current.password → (chainFrom current ps).password = current.password) ∧
    (truthy current.otp → (chainFrom current ps).otp = current.otp) ∧
    (¬ truthy current.password → truthy ((p current).password) →
      (chainFrom current (p :: rest)).password = (p current).password) := by
  obtain ⟨hu, hp, ho⟩ := chainFrom_preserves ps current
  refine ⟨hu, hp, ho, fun hmiss hnew => ?_⟩
  show (chainFrom (mergeCredentials current (p current)) rest).password = _
  have hmerge : (mergeCredentials current (p current)).password = (p current).password := by
    unfold mergeCredentials orTruthy
    simp only
    rw [if_neg hmiss]
  rw [(chainFrom_preserves rest (mergeCredentials current (p current))).2.1
      (by rw [hmerge]; exact hnew), hmerge]

/-- Closed instantiation of C4: with two providers that can both supply a
password, the earlier provider's non-empty value wins. -/
theorem credential_chain_precedence_witness :
    (chainFrom { password := some "first" }
      [fun _ => { password := some "second" }]).password = some "first" := by
  have h := credential_chain_precedence { password := some "first" }
    (fun _ => { password := some "second" }) [] [fun _ => { password := some "second" }]
  exact h.2.1 (by decide)

/-! ### Cookie scoring (C5, C6) -/

lemma candBefore_total : ∀ a b : CookieCandidate, candBefore a b ∨ candBefore b a := by
  intro a b
  unfold candBefore
  omega

lemma candBefore_trans :
    ∀ a b c : CookieCandidate, candBefore a b → candBefore b c → candBefore a c := by
  intro a b c hab hbc
  unfold candBefore at *
  omega

instance : IsTotal CookieCandidate candBefore := ⟨candBefore_total⟩

instance : IsTrans CookieCandidate candBefore := ⟨candBefore_trans⟩

lemma candBefore_refl (a : CookieCandidate) : candBefore a a := by
  unfold candBefore
  omega

/-- A candidate produced by the detection loop carries exactly the documented
score. -/
lemma candidateFor_score {reader : ChromeCookieReader} {p : String} {c : CookieCandidate}
    (h : candidateFor reader p = some c) :
    c.score = c.authMatches * 10 + c.httpOnlyCount * 3 + min c.cookieCount 50 := by
  unfold candidateFor at h
  by_cases he : (npmUrls.flatMap (fun url => reader url p)).isEmpty
  · simp [he] at h
  · simp [he] at h
    rw [← h]

/-- Claim C5: for every profile whose cookies were read, the detection
computes the score `authNameMatches*10 + httpOnlyCount*3 + min(total, 50)` and
returns a candidate ranked first under descending score with ties broken by
`authMatches`, then `httpOnlyCount`, then raw cookie count. -/
theorem detect_profile_by_cookies_spec (reader : ChromeCookieReader)
    (profiles : List String) (c : CookieCandidate)
    (h : detectProfileByCookies reader profiles = some c) :
    (∃ p ∈ profiles, candidateFor reader p = some c) ∧
    c.score = c.authMatches * 10 + c.httpOnlyCount * 3 + min c.cookieCount 50 ∧
    (∀ c' ∈ candidatesOf reader profiles, candBefore c c') := by
  unfold detectProfileByCookies at h
  by_cases he : (candidatesOf reader profiles).isEmpty
  · simp [he] at h
  · simp only [he, if_false, Bool.false_eq_true] at h
    have hmem : c ∈ candidatesOf reader profiles := by
      rw [← List.mem_insertionSort (r := candBefore)]
      exact List.mem_of_mem_head? h
    have hrank : ∀ c' ∈ candidatesOf reader profiles, candBefore c c' := by
      intro c' hc'
      rw [← List.mem_insertionSort (r := candBefore)] at hc'
      have hsorted := List.sorted_insertionSort candBefore (candidatesOf reader profiles)
      cases hs : (candidatesOf reader profiles).insertionSort candBefore with
      | nil => rw [hs] at h; exact absurd h (by simp)
      | cons hd tl =>
        rw [hs] at h hc' hsorted
        have hhd : hd = c := by simpa using h
        subst hhd
        rcases List.mem_cons.mp hc' with rfl | htl
        · exact candBefore_refl _
        · exact List.rel_of_sorted_cons hsorted _ htl
    obtain ⟨p, hp, hcand⟩ := List.mem_filterMap.mp hmem
    exact ⟨⟨p, hp, hcand⟩, candidateFor_score hcand, hrank⟩

/-- A one-profile concrete run used to instantiate C5. -/
def readerW : ChromeCookieReader := fun url profile =>
  if url = "https://www.npmjs.com" ∧ profile = "Default" then
    [{ name := some "npm_session", httpOnly := some true }]
  else
    []

/-- Closed instantiation of C5. -/
theorem detect_profile_by_cookies_spec_witness :
    (∃ p ∈ ["Default"], candidateFor readerW p =
      some { profile := "Default", cookieCount := 1, authMatches := 1,
             httpOnlyCount := 1, score := 14 }) ∧
    (14 : Nat) = 1 * 10 + 1 * 3 + min 1 50 ∧
    (∀ c' ∈ candidatesOf readerW ["Default"],
      candBefore { profile := "Default", cookieCount := 1, authMatches := 1,
                   httpOnlyCount := 1, score := 14 } c') :=
  detect_profile_by_cookies_spec readerW ["Default"] _ (by decide)

/-- The two cookie sets of C6: profile `ProfileA` has 5 cookies, 2 with
auth-like names, 1 http-only; profile `ProfileB` has 40 cookies, none
auth-like, 3 http-only. -/
def cookiesA : List ChromeCookie :=
  [{ name := some "sessionx", httpOnly := some true },
   { name := some "authy" },
   { name := some "pref1" },
   { name := some "pref2" },
   { name := some "pref3" }]

def cookiesB : List ChromeCookie :=
  (List.range 40).map (fun i =>
    { name := some ("c" ++ toString i), httpOnly := some (decide (i < 3)) })

def readerC6 : ChromeCookieReader := fun url profile =>
  if url = "https://www.npmjs.com" then
    if profile = "ProfileA" then cookiesA
    else if profile = "ProfileB" then cookiesB
    else []
  else
    []

/-- Counterexample to claim C6 as stated: with the claim's two cookie sets the
first profile scores 28 and the second 49, and the detection selects the
*second* profile (highest score first), not the first. -/
theorem cookie_scoring_claim_counterexample :
    (detectProfileByCookies readerC6 ["ProfileA", "ProfileB"]).map (·.profile) ≠
      some "ProfileA" := by
  decide

/-- Claim C6 amended: with cookie sets `{auth-like: 2, httpOnly: 1, total: 5}`
(score 28) and `{auth-like: 0, httpOnly: 3, total: 40}` (score 49), the second
profile is selected ahead of the first, because candidates are ranked by
descending score. -/
theorem cookie_scoring_amended :
    (candidateFor readerC6 "ProfileA").map (·.score) = some 28 ∧
    (candidateFor readerC6 "ProfileB").map (·.score) = some 49 ∧
    (detectProfileByCookies readerC6 ["ProfileA", "ProfileB"]).map (·.profile) =
      some "ProfileB" := by
  refine ⟨by decide, by decide, by decide⟩

/-! ### Template capture (C7, C8) -/

lemma mapFieldsStep_owner_src (m : TPFieldMap) (i : TrustedPublisherFieldInput) :
    truthy (mapFieldsStep m i).owner → truthy m.owner ∨ matchesOwner (haystack i) = true := by
  intro h'
  simp only [mapFieldsStep] at h'
  repeat' split at h'
  all_goals first
    | exact Or.inl h'
    | tauto

lemma mapFieldsStep_repo_src (m : TPFieldMap) (i : TrustedPublisherFieldInput) :
    truthy (mapFieldsStep m i).repo → truthy m.repo ∨ matchesRepo (haystack i) = true := by
  intro h'
  simp only [mapFieldsStep] at h'
  repeat' split at h'
  all_goals first
    | exact Or.inl h'
    | tauto

lemma mapFieldsStep_workflow_src (m : TPFieldMap) (i : TrustedPublisherFieldInput) :
    truthy (mapFieldsStep m i).workflow →
      truthy m.workflow ∨ matchesWorkflow (haystack i) = true := by
  intro h'
  simp only [mapFieldsStep] at h'
  repeat' split at h'
  all_goals first
    | exact Or.inl h'
    | tauto

/-- A logical field can only become mapped when some input's haystack matches
its pattern. -/
lemma mapFold_sources (inputs : List TrustedPublisherFieldInput) :
    ∀ m0 : TPFieldMap,
      (truthy (inputs.foldl mapFieldsStep m0).owner →
        truthy m0.owner ∨ ∃ i ∈ inputs, matchesOwner (haystack i) = true) ∧
      (truthy (inputs.foldl mapFieldsStep m0).repo →
        truthy m0.repo ∨ ∃ i ∈ inputs, matchesRepo (haystack i) = true) ∧
      (truthy (inputs.foldl mapFieldsStep m0).workflow →
        truthy m0.workflow ∨ ∃ i ∈ inputs, matchesWorkflow (haystack i) = true) := by
  induction inputs with
  | nil => intro m0; exact ⟨fun h => Or.inl h, fun h => Or.inl h, fun h => Or.inl h⟩
  | cons i rest ih =>
    intro m0
    refine ⟨fun h => ?_, fun h => ?_, fun h => ?_⟩
    · rcases (ih (mapFieldsStep m0 i)).1 h with h1 | ⟨j, hj, hm⟩
      · rcases mapFieldsStep_owner_src m0 i h1 with h2 | h2
        · exact Or.inl h2
        · exact Or.inr ⟨i, List.mem_cons_self i rest, h2⟩
      · exact Or.inr ⟨j, List.mem_cons_of_mem i hj, hm⟩
    · rcases (ih (mapFieldsStep m0 i)).2.1 h with h1 | ⟨j, hj, hm⟩
      · rcases mapFieldsStep_repo_src m0 i h1 with h2 | h2
        · exact Or.inl h2
        · exact Or.inr ⟨i, List.mem_cons_self i rest, h2⟩
      · exact Or.inr ⟨j, List.mem_cons_of_mem i hj, hm⟩
    · rcases (ih (mapFieldsStep m0 i)).2.2 h with h1 | ⟨j, hj, hm⟩
      · rcases mapFieldsStep_workflow_src m0 i h1 with h2 | h2
        · exact Or.inl h2
        · exact Or.inr ⟨i, List.mem_cons_self i rest, h2⟩
      · exact Or.inr ⟨j, List.mem_cons_of_mem i hj, hm⟩

/-- Claim C7: when no captured input maps to owner (or to repo, or to
workflow), template construction fails with an error and no `Template` value
is produced. -/
theorem template_mapping_completeness (action method : String)
    (inputs : List TrustedPublisherFieldInput)
    (h : (∀ i ∈ inputs, matchesOwner (haystack i) = false) ∨
         (∀ i ∈ inputs, matchesRepo (haystack i) = false) ∨
         (∀ i ∈ inputs, matchesWorkflow (haystack i) = false)) :
    ∃ e, buildTrustedPublisherTemplate action method inputs = .error e := by
  have hmiss :
      ¬ truthy (inputs.foldl mapFieldsStep {}).owner ∨
      ¬ truthy (inputs.foldl mapFieldsStep {}).repo ∨
      ¬ truthy (inputs.foldl mapFieldsStep {}).workflow := by
    rcases h with h | h | h
    · refine Or.inl fun htr => ?_
      rcases (mapFold_sources inputs {}).1 htr with h1 | ⟨j, hj, hm⟩
      · exact absurd h1 (by decide)
      · rw [h j hj] at hm; exact absurd hm (by decide)
    · refine Or.inr (Or.inl fun htr => ?_)
      rcases (mapFold_sources inputs {}).2.1 htr with h1 | ⟨j, hj, hm⟩
      · exact absurd h1 (by decide)
      · rw [h j hj] at hm; exact absurd hm (by decide)
    · refine Or.inr (Or.inr fun htr => ?_)
      rcases (mapFold_sources inputs {}).2.2 htr with h1 | ⟨j, hj, hm⟩
      · exact absurd h1 (by decide)
      · rw [h j hj] at hm; exact absurd hm (by decide)
  have hmap : ∃ e, mapTrustedPublisherFields inputs = .error e := by
    unfold mapTrustedPublisherFields
    rw [if_pos hmiss]
    exact ⟨_, rfl⟩
  obtain ⟨e, he⟩ := hmap
  exact ⟨e, by unfold buildTrustedPublisherTemplate; rw [he]⟩

/-- Closed instantiation of C7: a form whose only input is a checkbox with no
owner-, repo- or workflow-like text fails template construction. -/
theorem template_mapping_completeness_witness :
    ∃ e, buildTrustedPublisherTemplate "/package/demo/access" "POST"
      [{ name := "subscribe", type := some "checkbox", value := some "on" }] = .error e :=
  template_mapping_completeness "/package/demo/access" "POST" _
    (Or.inl (by decide))

lemma lookup_map_overwrite (k v : String) :
    ∀ sf : List (String × String), sf.any (fun kv => kv.1 = k) = true →
      ((sf.map (fun kv => if kv.1 = k then (k, v) else kv)).lookup k) = some v := by
  intro sf
  induction sf with
  | nil => intro hany; simp at hany
  | cons hd tl ih =>
    intro hany
    obtain ⟨k1, v1⟩ := hd
    by_cases hk : k1 = k
    · simp [hk, List.lookup_cons]
    · have htl : tl.any (fun kv => kv.1 = k) = true := by
        simp only [List.any_cons] at hany
        rcases Bool.or_eq_true_iff.mp hany with h1 | h1
        · exact absurd (of_decide_eq_true h1) hk
        · exact h1
      simp only [List.map_cons, if_neg hk]
      rw [List.lookup_cons]
      have : (k == k1) = false := beq_eq_false_iff_ne.mpr (fun h => hk h.symm)
      rw [this]
      exact ih htl

lemma lookup_append_missing (k v : String) :
    ∀ sf : List (String × String), sf.any (fun kv => kv.1 = k) = false →
      ((sf ++ [(k, v)]).lookup k) = some v := by
  intro sf
  induction sf with
  | nil => simp
  | cons hd tl ih =>
    intro hnone
    obtain ⟨k1, v1⟩ := hd
    simp only [List.any_cons, Bool.or_eq_false_iff] at hnone
    have hk : k1 ≠ k := by
      intro h
      rw [h] at hnone
      simp at hnone
    simp only [List.cons_append]
    rw [List.lookup_cons]
    have : (k == k1) = false := beq_eq_false_iff_ne.mpr (fun h => hk h.symm)
    rw [this]
    exact ih hnone.2

lemma lookup_setField_self (sf : List (String × String)) (k v : String) :
    ((setField sf k v).lookup k) = some v := by
  unfold setField
  by_cases hany : sf.any (fun kv => kv.1 = k) = true
  · rw [if_pos hany]
    exact lookup_map_overwrite k v sf hany
  · rw [if_neg hany]
    exact lookup_append_missing k v sf (Bool.eq_false_iff.mpr hany)

lemma lookup_map_ne (k v k' : String) (h : k' ≠ k) :
    ∀ sf : List (String × String),
      ((sf.map (fun kv => if kv.1 = k then (k, v) else kv)).lookup k') = sf.lookup k' := by
  intro sf
  induction sf with
  | nil => rfl
  | cons hd tl ih =>
    obtain ⟨k1, v1⟩ := hd
    by_cases hk : k1 = k
    · simp only [List.map_cons, if_pos hk]
      rw [List.lookup_cons, List.lookup_cons]
      have h1 : (k' == k) = false := beq_eq_false_iff_ne.mpr h
      have h2 : (k' == k1) = false := beq_eq_false_iff_ne.mpr (hk ▸ h)
      rw [h1, h2]
      exact ih
    · simp only [List.map_cons, if_neg hk]
      rw [List.lookup_cons, List.lookup_cons]
      cases hbeq : (k' == k1) with
      | true => rfl
      | false => exact ih

lemma lookup_append_ne (k v k' : String) (h : k' ≠ k) :
    ∀ sf : List (String × String), ((sf ++ [(k, v)]).lookup k') = sf.lookup k' := by
  intro sf
  induction sf with
  | nil =>
    simp only [List.nil_append, List.lookup_nil]
    rw [List.lookup_cons]
    rw [beq_eq_false_iff_ne.mpr h]
    rfl
  | cons hd tl ih =>
    obtain ⟨k1, v1⟩ := hd
    simp only [List.cons_append]
    rw [List.lookup_cons, List.lookup_cons]
    cases hbeq : (k' == k1) with
    | true => rfl
    | false => exact ih

lemma lookup_setField_ne (sf : List (String × String)) (k v k' : String)
    (h : k' ≠ k) : ((setField sf k v).lookup k') = sf.lookup k' := by
  unfold setField
  by_cases hany : sf.any (fun kv => kv.1 = k) = true
  · rw [if_pos hany]
    exact lookup_map_ne k v k' h sf
  · rw [if_neg hany]
    exact lookup_append_ne k v k' h sf

/-- The conditions under which the `staticFields` loop keeps an input: a
truthy name not claimed by the field map, a truthy value, and not a checkbox. -/
def keptAsStatic (fm : TPFieldMap) (i : TrustedPublisherFieldInput) : Prop :=
  i.name ≠ "" ∧ (fieldMapValues fm).contains i.name = false ∧
    truthy i.value = true ∧ isCheckboxType i.type = false

lemma staticFieldsStep_kept (fm : TPFieldMap) (sf : List (String × String))
    (i : TrustedPublisherFieldInput) (h : keptAsStatic fm i) :
    staticFieldsStep fm sf i = setField sf i.name (i.value.getD "") := by
  obtain ⟨h1, h2, h3, h4⟩ := h
  unfold staticFieldsStep
  rw [if_neg h1, if_neg (by simpa using h2), if_neg (by simp [h3]), if_neg (by simp [h4])]

lemma staticFieldsStep_lookup_ne (fm : TPFieldMap) (sf : List (String × String))
    (i : TrustedPublisherFieldInput) (k : String) (h : i.name ≠ k) :
    ((staticFieldsStep fm sf i).lookup k) = sf.lookup k := by
  unfold staticFieldsStep
  repeat' split
  all_goals first
    | rfl
    | exact lookup_setField_ne sf i.name (i.value.getD "") k (Ne.symm h)

/-- Once the key maps to the desired value, later iterations (which either
skip an input, touch a different key, or rewrite the same key with the same
value) preserve the binding. -/
lemma fold_lookup_stable (fm : TPFieldMap) (k : String) (v : String) :
    ∀ (l : List TrustedPublisherFieldInput) (sf : List (String × String)),
      (∀ j ∈ l, j.name = k → keptAsStatic fm j ∧ j.value.getD "" = v) →
      sf.lookup k = some v →
      ((l.foldl (staticFieldsStep fm) sf).lookup k) = some v := by
  intro l
  induction l with
  | nil => intro sf _ hsf; exact hsf
  | cons j rest ih =>
    intro sf hprop hsf
    simp only [List.foldl_cons]
    by_cases hj : j.name = k
    · obtain ⟨hkept, hv⟩ := hprop j (List.mem_cons_self j rest) hj
      refine ih _ (fun j' hj' hk' => hprop j' (List.mem_cons_of_mem j hj') hk') ?_
      rw [staticFieldsStep_kept fm sf j hkept, hj, hv]
      exact lookup_setField_self sf k v
    · refine ih _ (fun j' hj' hk' => hprop j' (List.mem_cons_of_mem j hj') hk') ?_
      rw [staticFieldsStep_lookup_ne fm sf j k hj]
      exact hsf

/-- The heart of C8 (amended): a kept input whose name is carried by no other
input ends up bound to its value in the folded static-fields record. -/
lemma fold_lookup_kept (fm : TPFieldMap) (i : TrustedPublisherFieldInput)
    (hkept : keptAsStatic fm i) :
    ∀ (l : List TrustedPublisherFieldInput) (sf : List (String × String)),
      i ∈ l → (∀ j ∈ l, j.name = i.name → j = i) →
      ((l.foldl (staticFieldsStep fm) sf).lookup i.name) = some (i.value.getD "") := by
  intro l
  induction l with
  | nil => intro sf hmem; exact absurd hmem (List.not_mem_nil i)
  | cons j rest ih =>
    intro sf hmem huniq
    simp only [List.foldl_cons]
    by_cases hj : j.name = i.name
    · have hji : j = i := huniq j (List.mem_cons_self j rest) hj
      subst hji
      refine fold_lookup_stable fm j.name (j.value.getD "") rest _
        (fun j' hj' hk' => ?_) ?_
      · have := huniq j' (List.mem_cons_of_mem j hj') hk'
        subst this
        exact ⟨hkept, rfl⟩
      · rw [staticFieldsStep_kept fm sf j hkept]
        exact lookup_setField_self sf j.name (j.value.getD "")
    · have hmem' : i ∈ rest := by
        rcases List.mem_cons.mp hmem with rfl | hr
        · exact absurd rfl hj
        · exact hr
      exact ih _ hmem' (fun j' hj' hk' => huniq j' (List.mem_cons_of_mem j hj') hk')

/-- Claim C8 (amended): every captured input with a name that is not mapped to
a logical field, carrying a non-empty value, and *not of checkbox type*, is
preserved verbatim in the template's static fields (stated for an input whose
name no other input shares, matching the record semantics of the source). -/
theorem static_fields_preserved (action method : String)
    (inputs : List TrustedPublisherFieldInput) (tpl : TrustedPublisherTemplate)
    (i : TrustedPublisherFieldInput)
    (hok : buildTrustedPublisherTemplate action method inputs = .ok tpl)
    (hmem : i ∈ inputs) (hname : i.name ≠ "")
    (hunmapped : (fieldMapValues tpl.fieldMap).contains i.name = false)
    (hval : truthy i.value = true) (hcb : isCheckboxType i.type = false)
    (huniq : ∀ j ∈ inputs, j.name = i.name → j = i) :
    tpl.staticFields.lookup i.name = some (i.value.getD "") := by
  unfold buildTrustedPublisherTemplate at hok
  cases hm : mapTrustedPublisherFields inputs with
  | error e => rw [hm] at hok; exact absurd hok (by simp)
  | ok fm =>
    rw [hm] at hok
    have htpl :
        tpl = { action := action
                method := if jsToUpper method = "GET" then .get else .post
                staticFields := inputs.foldl (staticFieldsStep fm) []
                fieldMap := fm } := by
      cases hok
      rfl
    subst htpl
    exact fold_lookup_kept fm i ⟨hname, hunmapped, hval, hcb⟩ inputs [] hmem huniq

/-- The concrete captured form of the C8 counterexample: three mappable text
inputs plus a named, non-empty checkbox that matches no logical field. -/
def inputsC8 : List TrustedPublisherFieldInput :=
  [{ name := "owner_in", label := some "Organization or user" },
   { name := "repo_in", label := some "Repository" },
   { name := "wf_in", label := some "Workflow filename" },
   { name := "subscribe", type := some "checkbox", value := some "on",
     label := some "Subscribe newsletter" }]

/-- Counterexample to claim C8 as stated: the `subscribe` input has a name, is
mapped to no logical field, and carries the non-empty value `"on"`, yet the
built template's static fields do not contain it (the source skips inputs of
checkbox type). -/
theorem static_fields_checkbox_counterexample :
    ({ name := "subscribe", type := some "checkbox", value := some "on",
       label := some "Subscribe newsletter" } : TrustedPublisherFieldInput) ∈ inputsC8 ∧
    (buildTrustedPublisherTemplate "/package/demo/access" "POST" inputsC8).toOption.map
      (fun tpl => ((fieldMapValues tpl.fieldMap).contains "subscribe",
                   tpl.staticFields.lookup "subscribe")) = some (false, none) := by
  exact ⟨by decide, by rfl⟩

/-- The inputs of the C8 witness: as `inputsC8` but with a non-checkbox
unmapped extra field. -/
def inputsC8W : List TrustedPublisherFieldInput :=
  [{ name := "owner_in", label := some "Organization or user" },
   { name := "repo_in", label := some "Repository" },
   { name := "wf_in", label := some "Workflow filename" },
   { name := "csrf", value := some "tok123" }]

/-- Closed instantiation of amended C8: the unmapped hidden `csrf` input is
preserved verbatim. -/
theorem static_fields_preserved_witness :
    ({ action := "/package/demo/access", method := .post,
       staticFields := [("csrf", "tok123")],
       fieldMap := { owner := some "owner_in", repo := some "repo_in",
                     workflow := some "wf_in" } } :
      TrustedPublisherTemplate).staticFields.lookup "csrf" = some "tok123" := by
  have h := static_fields_preserved "/package/demo/access" "POST" inputsC8W
    { action := "/package/demo/access", method := .post,
      staticFields := [("csrf", "tok123")],
      fieldMap := { owner := some "owner_in", repo := some "repo_in",
                    workflow := some "wf_in" } }
    { name := "csrf", value := some "tok123" }
    (by rfl) (by decide) (by decide) (by decide) (by decide) (by decide) (by decide)
  exact h

/-! ### Reconciliation engine (C1, C2, C3, C10) -/

lemma bind_apply {α β : Type} (x : M α) (f : α → M β) (s : PageState) :
    (x >>= f) s = match x s with
      | (.ok a, s') => f a s'
      | (.error e, s') => (.error e, s') := rfl

lemma pure_apply {α : Type} (a : α) (s : PageState) : (pure a : M α) s = (.ok a, s) := rfl

/-- Claim C1: for every Target with `publishingAccess == 'skip'`,
`ensurePublishingAccess` returns `skipped` immediately and performs no page
action whatsoever — the state (and hence the action trace) is untouched —
regardless of the page oracle, the options (including `dryRun`), and the
starting state. -/
theorem publishing_access_skip_invariant (O : PageOracle)
    (target : TrustedPublisherTarget) (options : EnsureOptions) (s : PageState)
    (h : target.publishingAccess = .skip) :
    ensurePublishingAccess O target options s = (.ok .skipped, s) := by
  unfold ensurePublishingAccess
  rw [if_pos h]
  rfl

/-- A Target used by the concrete instantiations. -/
def demoTarget : TrustedPublisherTarget :=
  { packageName := "demo", owner := "acme", repo := "widgets",
    workflow := "release.yml", provider := .github,
    publishingAccess := .disallowTokens }

/-- Closed instantiation of C1. -/
theorem publishing_access_skip_invariant_witness :
    ensurePublishingAccess (fun _ => {}) { demoTarget with publishingAccess := .skip }
      {} initState = (.ok .skipped, initState) :=
  publishing_access_skip_invariant (fun _ => {})
    { demoTarget with publishingAccess := .skip } {} initState rfl

/-- All recorded actions of a state are non-mutating. -/
def cleanTrace (s : PageState) : Prop := ∀ a ∈ s.trace, isMutating a = false

/-- A computation that never records a mutating action. -/
def Clean {α : Type} (m : M α) : Prop := ∀ s, cleanTrace s → cleanTrace (m s).2

lemma Clean.bind {α β : Type} {x : M α} {f : α → M β}
    (hx : Clean x) (hf : ∀ a, Clean (f a)) : Clean (x >>= f) := by
  intro s hs
  have hs' : cleanTrace (x s).2 := hx s hs
  rw [bind_apply]
  rcases hxs : x s with ⟨r, s'⟩
  rw [hxs] at hs'
  cases r with
  | ok a => exact hf a s' hs'
  | error e => exact hs'

lemma Clean.pure {α : Type} (a : α) : Clean (pure a : M α) := fun _ hs => hs

lemma Clean.throwM {α : Type} (e : String) : Clean (throwM e : M α) := fun _ hs => hs

lemma Clean.viewM (O : PageOracle) : Clean (viewM O) := fun _ hs => hs

lemma Clean.nowM : Clean nowM := fun _ hs => hs

lemma Clean.waitMs (ms : Nat) : Clean (waitMs ms) := by
  intro s hs a ha
  rcases List.mem_append.mp ha with h | h
  · exact hs a h
  · rw [List.mem_singleton.mp h]
    rfl

lemma Clean.act {a : PageAction} (h : isMutating a = false) : Clean (act a) := by
  intro s hs b hb
  rcases List.mem_append.mp hb with h' | h'
  · exact hs b h'
  · rw [List.mem_singleton.mp h']
    exact h

lemma Clean.captureScreenshot (dir : Option String) (label : String) :
    Clean (captureScreenshot dir label) := by
  cases dir with
  | none => exact Clean.pure none
  | some d => exact Clean.bind (Clean.act rfl) (fun _ => Clean.pure _)

lemma Clean.catchM {α : Type} {x : M α} {h : String → M α}
    (hx : Clean x) (hh : ∀ e, Clean (h e)) : Clean (catchM x h) := by
  intro s hs
  have hs' : cleanTrace (x s).2 := hx s hs
  unfold NpmTrustme.catchM
  rcases hxs : x s with ⟨r, s'⟩
  rw [hxs] at hs'
  cases r with
  | ok a => exact hs'
  | error e => exact hh e s' hs'

lemma Clean.triggerSecurityKeyIfPresent (O : PageOracle) :
    Clean (triggerSecurityKeyIfPresent O) := by
  refine Clean.bind (Clean.viewM O) (fun v => ?_)
  split
  · exact Clean.act rfl
  · exact Clean.pure _

lemma Clean.accessTimeoutFail (options : EnsureOptions) :
    Clean (accessTimeoutFail options) :=
  Clean.bind (Clean.captureScreenshot _ _) (fun _ => Clean.throwM _)

lemma Clean.waitForAccessReadyLoop (O : PageOracle) (options : EnsureOptions)
    (pkg : String) (start : Nat) :
    ∀ (fuel : Nat) (lp tp : Bool) (ln : Nat),
      Clean (waitForAccessReadyLoop O options pkg start fuel lp tp ln) := by
  intro fuel
  induction fuel with
  | zero => intro lp tp ln; exact Clean.accessTimeoutFail options
  | succ fuel ih =>
    intro lp tp ln
    refine Clean.bind Clean.nowM (fun now => ?_)
    split
    · refine Clean.bind (Clean.viewM O) (fun v => ?_)
      split
      · split
        · exact Clean.bind (Clean.waitMs 1000) (fun _ => ih _ _ _)
        · exact Clean.throwM _
      · split
        · split
          · exact Clean.bind (Clean.triggerSecurityKeyIfPresent O)
              (fun _ => Clean.bind (Clean.waitMs 1000) (fun _ => ih _ _ _))
          · exact Clean.throwM _
        · split
          · exact Clean.pure _
          · refine Clean.bind Clean.nowM (fun now2 => ?_)
            split
            · exact Clean.bind (Clean.act rfl) (fun _ => ih _ _ _)
            · exact Clean.bind (Clean.waitMs 1000) (fun _ => ih _ _ _)
    · exact Clean.accessTimeoutFail options

lemma Clean.waitForAccessReady (O : PageOracle) (options : EnsureOptions) (pkg : String) :
    Clean (waitForAccessReady O options pkg) :=
  Clean.bind Clean.nowM (fun start => Clean.waitForAccessReadyLoop O options pkg start _ _ _ _)

lemma Clean.focusTrustedPublishersSection (O : PageOracle) :
    Clean (focusTrustedPublishersSection O) := by
  refine Clean.bind (Clean.viewM O) (fun v => ?_)
  split
  · exact Clean.bind (Clean.act rfl) (fun _ => Clean.waitMs 500)
  · refine Clean.bind (Clean.viewM O) (fun v2 => ?_)
    split
    · exact Clean.act rfl
    · exact Clean.pure _

lemma Clean.hasTrustedPublisher (O : PageOracle) (target : TrustedPublisherTarget) :
    Clean (hasTrustedPublisher O target) := by
  unfold NpmTrustme.hasTrustedPublisher
  refine Clean.bind (Clean.viewM O) (fun v1 => ?_)
  refine Clean.bind (Clean.viewM O) (fun v2 => ?_)
  cases target.environment with
  | some e =>
    exact Clean.bind (Clean.viewM O)
      (fun v3 => Clean.bind (Clean.pure _) (fun y => Clean.pure _))
  | none => exact Clean.bind (Clean.pure _) (fun y => Clean.pure _)

/-- Under `dryRun`, `ensureTrustedPublisher` never records a mutating action:
the mutating branch is only reached after the dry-run guard returns. -/
lemma ensureTrustedPublisher_dryRun_clean (O : PageOracle)
    (target : TrustedPublisherTarget) (options : EnsureOptions)
    (h : options.dryRun = true) : Clean (ensureTrustedPublisher O target options) := by
  unfold ensureTrustedPublisher
  refine Clean.bind (Clean.act rfl) (fun _ => ?_)
  refine Clean.bind (Clean.waitForAccessReady O options _) (fun _ => ?_)
  refine Clean.bind (Clean.focusTrustedPublishersSection O) (fun _ => ?_)
  refine Clean.bind (Clean.hasTrustedPublisher O target) (fun exists_ => ?_)
  split
  all_goals exact Clean.pure _

/-- Under `dryRun`, `ensurePublishingAccess` never records a mutating action. -/
lemma ensurePublishingAccess_dryRun_clean (O : PageOracle)
    (target : TrustedPublisherTarget) (options : EnsureOptions)
    (h : options.dryRun = true) : Clean (ensurePublishingAccess O target options) := by
  unfold ensurePublishingAccess
  split
  · exact Clean.pure _
  · refine Clean.bind (Clean.act rfl) (fun _ => ?_)
    refine Clean.bind (Clean.waitForAccessReady O options _) (fun _ => ?_)
    refine Clean.bind (Clean.viewM O) (fun v => ?_)
    split
    · exact Clean.pure _
    · refine Clean.bind (Clean.viewM O) (fun v2 => ?_)
      split
      all_goals exact Clean.pure _

/-- Every `ok` result of the computation satisfies `P`. -/
def ResultSet {α : Type} (m : M α) (P : α → Prop) : Prop :=
  ∀ s r s', m s = (.ok r, s') → P r

lemma resultSet_bind {α β : Type} {x : M α} {f : α → M β} {P : β → Prop}
    (hf : ∀ a, ResultSet (f a) P) : ResultSet (x >>= f) P := by
  intro s r s' h
  rw [bind_apply] at h
  rcases hxs : x s with ⟨xr, xs'⟩
  rw [hxs] at h
  cases xr with
  | ok a => exact hf a xs' r s' h
  | error e => simp at h

lemma resultSet_pure {α : Type} {P : α → Prop} {a : α} (h : P a) :
    ResultSet (pure a : M α) P := by
  intro s r s' hh
  rw [pure_apply] at hh
  cases hh
  exact h

lemma resultSet_throwM {α : Type} {P : α → Prop} (e : String) :
    ResultSet (throwM e : M α) P := by
  intro s r s' hh
  simp [NpmTrustme.throwM] at hh

/-- Under `dryRun`, `ensureTrustedPublisher` only ever reports `exists` or
`dry-run` — never `added`. -/
lemma ensureTrustedPublisher_dryRun_result (O : PageOracle)
    (target : TrustedPublisherTarget) (options : EnsureOptions)
    (h : options.dryRun = true) :
    ResultSet (ensureTrustedPublisher O target options)
      (fun r => r = .exists_ ∨ r = .dryRun) := by
  unfold ensureTrustedPublisher
  refine resultSet_bind (fun _ => ?_)
  refine resultSet_bind (fun _ => ?_)
  refine resultSet_bind (fun _ => ?_)
  refine resultSet_bind (fun exists_ => ?_)
  split
  all_goals
    first
      | exact resultSet_pure (Or.inl rfl)
      | exact resultSet_pure (Or.inr rfl)

/-- Under `dryRun`, `ensurePublishingAccess` only ever reports `skipped`,
`ok` or `dry-run` — never `updated`. -/
lemma ensurePublishingAccess_dryRun_result (O : PageOracle)
    (target : TrustedPublisherTarget) (options : EnsureOptions)
    (h : options.dryRun = true) :
    ResultSet (ensurePublishingAccess O target options)
      (fun r => r = .skipped ∨ r = .okRes ∨ r = .dryRun) := by
  unfold ensurePublishingAccess
  split
  · exact resultSet_pure (Or.inl rfl)
  · refine resultSet_bind (fun _ => ?_)
    refine resultSet_bind (fun _ => ?_)
    refine resultSet_bind (fun v => ?_)
    split
    · exact resultSet_pure (Or.inl rfl)
    · refine resultSet_bind (fun v2 => ?_)
      split
      all_goals
        first
          | exact resultSet_pure (Or.inr (Or.inl rfl))
          | exact resultSet_pure (Or.inr (Or.inr rfl))

/-- Claim C2: with `dryRun = true`, neither `ensureTrustedPublisher` nor
`ensurePublishingAccess` ever performs a mutating page action (no provider
selection, form fill, submit click, radio click, or save click), and neither
can report an applied mutation (`added` / `updated`): a missing setting is
never transitioned to present by a dry run. -/
theorem dry_run_non_mutation (O : PageOracle) (target : TrustedPublisherTarget)
    (options : EnsureOptions) (s : PageState)
    (h : options.dryRun = true) (hs : ∀ a ∈ s.trace, isMutating a = false) :
    (∀ a ∈ ((ensureTrustedPublisher O target options) s).2.trace, isMutating a = false) ∧
    (∀ r s', (ensureTrustedPublisher O target options) s = (.ok r, s') → r ≠ .added) ∧
    (∀ a ∈ ((ensurePublishingAccess O target options) s).2.trace, isMutating a = false) ∧
    (∀ r s', (ensurePublishingAccess O target options) s = (.ok r, s') → r ≠ .updated) := by
  refine ⟨ensureTrustedPublisher_dryRun_clean O target options h s hs,
          fun r s' hr => ?_,
          ensurePublishingAccess_dryRun_clean O target options h s hs,
          fun r s' hr => ?_⟩
  · rcases ensureTrustedPublisher_dryRun_result O target options h s r s' hr with h1 | h1 <;>
      (rw [h1]; intro hc; exact absurd hc (by decide))
  · rcases ensurePublishingAccess_dryRun_result O target options h s r s' hr with h1 | h1 | h1 <;>
      (rw [h1]; intro hc; exact absurd hc (by decide))

/-- Closed instantiation of C2. -/
theorem dry_run_non_mutation_witness :
    (∀ a ∈ ((ensureTrustedPublisher (fun _ => {}) demoTarget { dryRun := true })
        initState).2.trace, isMutating a = false) ∧
    (∀ r s', (ensureTrustedPublisher (fun _ => {}) demoTarget { dryRun := true })
        initState = (.ok r, s') → r ≠ .added) ∧
    (∀ a ∈ ((ensurePublishingAccess (fun _ => {}) demoTarget { dryRun := true })
        initState).2.trace, isMutating a = false) ∧
    (∀ r s', (ensurePublishingAccess (fun _ => {}) demoTarget { dryRun := true })
        initState = (.ok r, s') → r ≠ .updated) :=
  dry_run_non_mutation (fun _ => {}) demoTarget { dryRun := true } initState rfl
    (fun a ha => absurd ha (List.not_mem_nil a))

/-- When the first observation already shows a ready, logged-in page, the
access-ready wait returns immediately after a single observation. -/
lemma waitForAccessReady_immediate (O : PageOracle) (options : EnsureOptions)
    (pkg : String) (s : PageState)
    (hl : (O s.t).urlHasLogin = false) (h2 : (O s.t).twoFactorGate = false)
    (hr : isTrustedPublishersReady (O s.t) = true)
    (ht : 0 < accessTimeout options) :
    waitForAccessReady O options pkg s = (.ok (), { s with t := s.t + 1 }) := by
  obtain ⟨k, hk⟩ : ∃ k, fuelFor (accessTimeout options) = k + 1 :=
    ⟨2 * (accessTimeout options / 1000) + 3, by unfold fuelFor; omega⟩
  unfold NpmTrustme.waitForAccessReady
  rw [bind_apply]
  simp only [NpmTrustme.nowM]
  rw [hk]
  simp only [waitForAccessReadyLoop]
  rw [bind_apply]
  simp only [NpmTrustme.nowM, Nat.sub_self]
  rw [if_pos ht]
  rw [bind_apply]
  simp only [NpmTrustme.viewM]
  rw [if_neg (by simp [hl]), if_neg (by simp [isTwoFactorGate, h2]), if_pos hr]
  rfl

lemma bind_ok {α β : Type} (x : M α) (f : α → M β) (s : PageState) (a : α)
    (s' : PageState) (h : x s = (.ok a, s')) : (x >>= f) s = f a s' := by
  rw [bind_apply, h]

/-- A page that is ready (logged in, no challenge gate) but exposes no radio
or labelled control for the desired publishing-access value. -/
def ReadyNoRadio (v : PageView) : Prop :=
  v.urlHasLogin = false ∧ v.twoFactorGate = false ∧
  isTrustedPublishersReady v = true ∧ v.radioByRole = false ∧ v.radioByLabel = false

/-- Claim C10: for a Target whose policy is not `skip`, when no radio or
labelled control for the desired policy can be located on the (ready) page,
`ensurePublishingAccess` returns `skipped` (an `ok` result, not an error) and
performs no mutating action — only the initial navigation. -/
theorem access_option_missing_skipped (O : PageOracle)
    (target : TrustedPublisherTarget) (options : EnsureOptions)
    (hns : target.publishingAccess ≠ .skip)
    (hO : ∀ i, ReadyNoRadio (O i)) (ht : 0 < accessTimeout options) :
    ensurePublishingAccess O target options initState =
      (.ok .skipped,
       { t := 3, nowMs := 0, trace := [.goto (accessUrl target.packageName)] }) := by
  obtain ⟨hl1, h2f1, hr1, _, _⟩ := hO 1
  obtain ⟨_, _, _, hrr2, hrl2⟩ := hO 2
  unfold NpmTrustme.ensurePublishingAccess
  rw [if_neg hns]
  rw [bind_ok _ _ initState ()
      { t := 1, nowMs := 0, trace := [.goto (accessUrl target.packageName)] } rfl]
  rw [bind_ok _ _ _ ()
      { t := 2, nowMs := 0, trace := [.goto (accessUrl target.packageName)] }
      (waitForAccessReady_immediate O options target.packageName
        { t := 1, nowMs := 0, trace := [.goto (accessUrl target.packageName)] }
        hl1 h2f1 hr1 ht)]
  rw [bind_ok _ _ { t := 2, nowMs := 0, trace := [.goto (accessUrl target.packageName)] }
      (O 2)
      { t := 3, nowMs := 0, trace := [.goto (accessUrl target.packageName)] } rfl]
  rw [if_pos (by simp [findRadio, hrr2, hrl2])]
  rfl

/-- A ready page whose trusted-publishers tab is visible but which carries no
access radio. Used to instantiate C10. -/
def readyNoRadioView : PageView := { tpTab := true }

/-- Closed instantiation of C10. -/
theorem access_option_missing_skipped_witness :
    ensurePublishingAccess (fun _ => readyNoRadioView) demoTarget {} initState =
      (.ok .skipped,
       { t := 3, nowMs := 0, trace := [.goto (accessUrl "demo")] }) :=
  access_option_missing_skipped (fun _ => readyNoRadioView) demoTarget {}
    (by decide) (fun _ => ⟨rfl, rfl, rfl, rfl, rfl⟩) (by decide)

/-- A ready page on which the desired access radio exists, is never checked,
and a save button is present: the apply path of `ensurePublishingAccess`. -/
def ApplyView (v : PageView) : Prop :=
  v.urlHasLogin = false ∧ v.twoFactorGate = false ∧
  isTrustedPublishersReady v = true ∧ findRadio v = true ∧
  v.radioChecked = false ∧ v.saveButton = true

/-- Claim C3 (amended): on the apply path (policy not `skip`, control found
and unchecked, `dryRun` off, save button present), `ensurePublishingAccess`
clicks the control, clicks save, waits a fixed 1000 ms, and returns `updated`
unconditionally — it performs no post-submit poll of the control's checked
state (here the oracle reports the control unchecked at every observation,
and the run still reports `updated`). -/
theorem publishing_access_update_fixed_wait (O : PageOracle)
    (target : TrustedPublisherTarget) (options : EnsureOptions)
    (hns : target.publishingAccess ≠ .skip) (hdry : options.dryRun = false)
    (hO : ∀ i, ApplyView (O i)) (ht : 0 < accessTimeout options) :
    ensurePublishingAccess O target options initState =
      (.ok .updated,
       { t := 8, nowMs := 1000,
         trace := [.goto (accessUrl target.packageName), .clickRadio,
                   .clickSave, .waitMs 1000] }) := by
  obtain ⟨hl1, h2f1, hr1, _, _, _⟩ := hO 1
  obtain ⟨_, _, _, hfr2, _, _⟩ := hO 2
  obtain ⟨_, _, _, _, hrc3, _⟩ := hO 3
  obtain ⟨_, _, _, _, _, hsb5⟩ := hO 5
  unfold NpmTrustme.ensurePublishingAccess
  rw [if_neg hns]
  rw [bind_ok _ _ initState ()
      { t := 1, nowMs := 0, trace := [.goto (accessUrl target.packageName)] } rfl]
  rw [bind_ok _ _ _ ()
      { t := 2, nowMs := 0, trace := [.goto (accessUrl target.packageName)] }
      (waitForAccessReady_immediate O options target.packageName
        { t := 1, nowMs := 0, trace := [.goto (accessUrl target.packageName)] }
        hl1 h2f1 hr1 ht)]
  rw [bind_ok _ _ { t := 2, nowMs := 0, trace := [.goto (accessUrl target.packageName)] }
      (O 2)
      { t := 3, nowMs := 0, trace := [.goto (accessUrl target.packageName)] } rfl]
  rw [if_neg (by simp [hfr2])]
  rw [bind_ok _ _ { t := 3, nowMs := 0, trace := [.goto (accessUrl target.packageName)] }
      (O 3)
      { t := 4, nowMs := 0, trace := [.goto (accessUrl target.packageName)] } rfl]
  rw [if_neg (by simp [hrc3])]
  rw [if_neg (by simp [hdry])]
  rw [bind_ok _ _ { t := 4, nowMs := 0, trace := [.goto (accessUrl target.packageName)] }
      ()
      { t := 5, nowMs := 0, trace := [.goto (accessUrl target.packageName), .clickRadio] }
      rfl]
  rw [bind_ok _ _ { t := 5, nowMs := 0, trace := [.goto (accessUrl target.packageName), .clickRadio] }
      (O 5)
      { t := 6, nowMs := 0, trace := [.goto (accessUrl target.packageName), .clickRadio] }
      rfl]
  rw [if_pos hsb5]
  rw [bind_ok _ _ { t := 6, nowMs := 0, trace := [.goto (accessUrl target.packageName), .clickRadio] }
      ()
      { t := 7, nowMs := 0, trace := [.goto (accessUrl target.packageName), .clickRadio, .clickSave] }
      rfl]
  rw [bind_ok _ _ { t := 7, nowMs := 0, trace := [.goto (accessUrl target.packageName), .clickRadio, .clickSave] }
      ()
      { t := 8, nowMs := 1000, trace := [.goto (accessUrl target.packageName), .clickRadio, .clickSave, .waitMs 1000] }
      rfl]
  rfl

/-- The concrete apply-path page of the C3 counterexample: radio present and
never checked, save button present. -/
def applyPathView : PageView := { tpTab := true, radioByRole := true, saveButton := true }

/-- Counterexample to claim C3 as stated: with a page whose desired control is
never checked at any observation (so a post-submit state check can never
match), `ensurePublishingAccess` still returns `updated` — there is no poll of
the checked state after the save click (the trace after `clickSave` is a
single fixed 1000 ms wait), and no hard failure is raised. -/
theorem publishing_access_confirm_counterexample :
    (∀ i, ((fun _ => applyPathView : PageOracle) i).radioChecked = false) ∧
    ensurePublishingAccess (fun _ => applyPathView) demoTarget
        { timeoutMs := some 1000 } initState =
      (.ok .updated,
       { t := 8, nowMs := 1000,
         trace := [.goto (accessUrl "demo"), .clickRadio, .clickSave,
                   .waitMs 1000] }) :=
  ⟨fun _ => rfl, by rfl⟩

/-- Closed instantiation of amended C3 (at a different option set than the
counterexample). -/
theorem publishing_access_update_fixed_wait_witness :
    ensurePublishingAccess (fun _ => applyPathView)
        { demoTarget with publishingAccess := .allowBypassToken } {} initState =
      (.ok .updated,
       { t := 8, nowMs := 1000,
         trace := [.goto (accessUrl "demo"), .clickRadio, .clickSave,
                   .waitMs 1000] }) :=
  publishing_access_update_fixed_wait (fun _ => applyPathView)
    { demoTarget with publishingAccess := .allowBypassToken } {}
    (by decide) rfl (fun _ => ⟨rfl, rfl, rfl, rfl, rfl, rfl⟩) (by decide)

end NpmTrustme
